import Mathlib

/-!
# go-mysql Mapper: a shallow embedding of `main.go`

The Mapper of `main.go` is a thin wrapper over `database/sql`.  Its methods are
embedded as pure functions that thread two pieces of state explicitly:

* the `Mapper` record itself (the Go receiver is a pointer, so every method
  returns the possibly updated record), and
* a chronological trace of the calls made into the outside world
  (`sql.Open`, `DB.Query`, `DB.Prepare`, `Stmt.Exec`, `Stmt.Close`, `DB.Close`,
  the logger and the standard streams).

The outside world is a record of oracles, `Env`.  Each oracle receives the trace
so far, so that an environment may answer differently on every call.  A Go
run-time panic (nil pointer dereference, failed type assertion) is an explicit
outcome of the embedded method.
-/

namespace GoMysql

/-! ## Data model -/

/-- Identity of a `*sql.DB` handle. -/
abbrev Handle := Nat

/-- Identity of a `*sql.Stmt` prepared statement. -/
abbrev StmtId := Nat

/-- Identity of a `*sql.Rows` result set. -/
abbrev RowsId := Nat

/-- Go `error` values, identified by their message. -/
abbrev GoError := String

/-- Dynamic Go values, as carried by `interface{}`: the nil interface, scalars,
and `[]interface{}` slices. -/
inductive Value where
  | nil : Value
  | int (i : Int) : Value
  | str (s : String) : Value
  | bool (b : Bool) : Value
  | slice (vs : List Value) : Value

/-- DBConfig of `main.go`: six strings. -/
structure DBConfig where
  User : String
  Password : String
  Host : String
  Port : String
  Database : String
  SSLmode : String
  deriving DecidableEq, Repr

/-- Mapper of `main.go`.  `Conn` is the `*sql.DB` pointer (`none` is the nil
pointer), `Logger` the optional logger capability and `BuildCollection` the
optional callback, both kept by identity only. -/
structure Mapper where
  DBConfig : DBConfig
  Conn : Option Handle
  Source : String
  Logger : Option Nat
  BuildCollection : Option Nat
  deriving DecidableEq, Repr

/-- Calls into the outside world, in the order they are made. -/
inductive Event where
  | stdout (line : String) : Event
  | stderrLog (line : String) : Event
  | loggerLog (logger : Nat) (data : List String) : Event
  | sqlOpen (driver : String) (dsn : String) : Event
  | dbQuery (h : Handle) (query : String) : Event
  | dbPrepare (h : Handle) (query : String) : Event
  | stmtExec (s : StmtId) (args : List Value) : Event
  | stmtClose (s : StmtId) : Event
  | dbClose (h : Handle) : Event

/-- The outside world.  Every oracle sees the trace of the calls made before it.
`sqlOpen` and `dbQuery` return the Go pair (pointer, error) as it is; `dbPrepare`
follows the contract of `database/sql` (a statement or an error). -/
structure Env where
  sqlOpen : List Event → String → String → Option Handle × Option GoError
  dbQuery : List Event → Handle → String → Option RowsId × Option GoError
  dbPrepare : List Event → Handle → String → Except GoError StmtId
  stmtExec : List Event → StmtId → List Value → Option GoError
  dbClose : List Event → Handle → Option GoError

/-- How a Go call ends: it returns a value or it panics. -/
inductive Ret (α : Type) where
  | ret (a : α) : Ret α
  | panic (msg : String) : Ret α

/-- Result of running a method: how it ended, the receiver and the trace
afterwards. -/
structure Step (α : Type) where
  out : Ret α
  mapper : Mapper
  trace : List Event

/-- Message of the run-time panic raised by a method call through a nil
`*sql.DB`. -/
def nilDeref : String := "invalid memory address or nil pointer dereference"

/-- Message of the run-time panic raised by a failed type assertion. -/
def badAssert : String := "interface conversion"

/-! ## The methods of `main.go` -/

/-- New of `main.go`: only the config is set, all other fields are zero. -/
def New (config : DBConfig) : Mapper :=
  { DBConfig := config, Conn := none, Source := "", Logger := none,
    BuildCollection := none }

/-- Method getDbInfo of `main.go`. -/
def Mapper.getDbInfo (mapper : Mapper) : String :=
  let c := mapper.DBConfig
  c.User ++ "@" ++ c.Host ++ ":" ++ c.Port ++ "/" ++ c.Database

/-- Method log of `main.go`: the logger when there is one, else `fmt.Println`,
which separates its operands by blanks and ends the line. -/
def Mapper.log (mapper : Mapper) (tr : List Event) (data : List String) : List Event :=
  match mapper.Logger with
  | some l => tr ++ [Event.loggerLog l data]
  | none => tr ++ [Event.stdout (" ".intercalate data ++ "\n")]

/-- The connection string built by Connect:
`fmt.Sprintf("%v:%v@tcp(%v:%v)/%v", User, Password, Host, Port, Database)`. -/
def connectionString (dbConfig : DBConfig) : String :=
  dbConfig.User ++ ":" ++ dbConfig.Password ++ "@tcp(" ++ dbConfig.Host ++ ":" ++
    dbConfig.Port ++ ")/" ++ dbConfig.Database

/-- Method Connect of `main.go`. -/
def Mapper.Connect (env : Env) (mapper : Mapper) (tr : List Event) :
    Option GoError × Mapper × List Event :=
  let dbConfig := mapper.DBConfig
  let cs := connectionString dbConfig
  let tr1 := mapper.log tr ["Connecting to mysql: ", mapper.getDbInfo]
  let tr2 := tr1 ++ [Event.sqlOpen "mysql" cs]
  match env.sqlOpen tr1 "mysql" cs with
  | (_, some err) => (some err, mapper, tr2)
  | (none, none) => (some "Connection to MySQL is nil", mapper, tr2)
  | (some conn, none) =>
    let tr3 := mapper.log tr2 ["Connected to mysql: ", mapper.getDbInfo]
    (none, { mapper with Conn := some conn }, tr3)

/-- Method Query of `main.go`. -/
def Mapper.Query (env : Env) (mapper : Mapper) (tr : List Event) (query : String) :
    Step (Option RowsId × Option GoError) :=
  let call (m : Mapper) (t : List Event) : Step (Option RowsId × Option GoError) :=
    match m.Conn with
    | none => ⟨Ret.panic nilDeref, m, t⟩
    | some h => ⟨Ret.ret (env.dbQuery t h query), m, t ++ [Event.dbQuery h query]⟩
  match mapper.Conn with
  | none =>
    match Mapper.Connect env mapper tr with
    | (some err, m1, tr1) => ⟨Ret.ret (none, some err), m1, tr1⟩
    | (none, m1, tr1) => call m1 tr1
  | some _ => call mapper tr

/-- Method Exec of `main.go`. -/
def Mapper.Exec (env : Env) (mapper : Mapper) (tr : List Event) (query : String) :
    Step (Option RowsId × Option GoError) :=
  Mapper.Query env mapper tr query

/-- First loop of InsertBatch: one `"?"` is appended per column. -/
def plLoop : Nat → List String → List String
  | 0, pl => pl
  | k + 1, pl => plLoop k (pl ++ ["?"])

/-- Inner loop of InsertBatch: the values of one row are appended in order. -/
def appendRow : List Value → List Value → List Value
  | [], values => values
  | v :: r, values => appendRow r (values ++ [v])

/-- Loop of InsertBatch over the rows: each row is asserted to be a
`[]interface{}` (the loop panics otherwise), its values are appended and one
placeholder group is added. -/
def rowsLoop (pl : List String) :
    List Value → List Value → List String → Option (List Value × List String)
  | [], values, placeholder => some (values, placeholder)
  | Value.slice r :: rest, values, placeholder =>
    rowsLoop pl rest (appendRow r values) (placeholder ++ ["(" ++ ",".intercalate pl ++ ")"])
  | _ :: _, _, _ => none

/-- The duplicate-key step of InsertBatch: the text is left as it is for the nil
interface, `SQL += " ON DUPLICATE KEY UPDATE " + onDuplicate.(string)` for a
string, and the type assertion panics (`none`) for any other dynamic type. -/
def applyOnDuplicate (sql : String) : Value → Option String
  | Value.nil => some sql
  | Value.str s => some (sql ++ (" ON DUPLICATE KEY UPDATE " ++ s))
  | _ => none

/-- Method InsertBatch of `main.go`. -/
def Mapper.InsertBatch (env : Env) (mapper : Mapper) (tr : List Event)
    (fields : List String) (rows : List Value) (onDuplicate : Value) :
    Step (Option GoError) :=
  if rows.length = 0 then ⟨Ret.ret none, mapper, tr⟩
  else
    let (m1, tr1) :=
      match mapper.Conn with
      | none => let r := Mapper.Connect env mapper tr; (r.2.1, r.2.2)
      | some _ => (mapper, tr)
    let sql0 := "insert into " ++ m1.Source ++ " (" ++ ",".intercalate fields ++ ") values "
    let pl := plLoop fields.length []
    match rowsLoop pl rows [] [] with
    | none => ⟨Ret.panic badAssert, m1, tr1⟩
    | some (values, placeholder) =>
      let sql1 := sql0 ++ ",".intercalate placeholder
      match applyOnDuplicate sql1 onDuplicate with
      | none => ⟨Ret.panic badAssert, m1, tr1⟩
      | some sql2 =>
        match m1.Conn with
        | none => ⟨Ret.panic nilDeref, m1, tr1⟩
        | some h =>
          let tr2 := tr1 ++ [Event.dbPrepare h sql2]
          match env.dbPrepare tr1 h sql2 with
          | Except.error err => ⟨Ret.ret (some err), m1, tr2⟩
          | Except.ok stmt =>
            let tr3 := tr2 ++ [Event.stmtExec stmt values]
            match env.stmtExec tr2 stmt values with
            | some execErr =>
              ⟨Ret.ret (some execErr), m1,
                tr3 ++ [Event.stdout ("MySQL exec:  " ++ execErr ++ "\n"), Event.stmtClose stmt]⟩
            | none => ⟨Ret.ret none, m1, tr3 ++ [Event.stmtClose stmt]⟩

/-- Method Insert of `main.go`: the row is appended to an empty slice. -/
def Mapper.Insert (env : Env) (mapper : Mapper) (tr : List Event)
    (fields : List String) (rows : Value) (onDuplicate : Value) : Step (Option GoError) :=
  let data : List Value := [] ++ [rows]
  Mapper.InsertBatch env mapper tr fields data onDuplicate

/-- The WHERE step of Load: the text is left as it is for the nil interface,
`SQL += " WHERE " + query.(string)` for a string, and the type assertion panics
(`none`) for any other dynamic type. -/
def applyWhere (sql : String) : Value → Option String
  | Value.nil => some sql
  | Value.str s => some (sql ++ (" WHERE " ++ s))
  | _ => none

/-- Method Load of `main.go`. -/
def Mapper.Load (env : Env) (mapper : Mapper) (tr : List Event)
    (source : String) (fields : String) (query : Value) :
    Step (Option RowsId × Option GoError) :=
  let (m1, tr1) :=
    match mapper.Conn with
    | none => let r := Mapper.Connect env mapper tr; (r.2.1, r.2.2)
    | some _ => (mapper, tr)
  let sql0 := "SELECT " ++ fields ++ " FROM " ++ source
  match applyWhere sql0 query with
  | none => ⟨Ret.panic badAssert, m1, tr1⟩
  | some sql =>
    let sql1 := sql ++ ";"
    match m1.Conn with
    | none => ⟨Ret.panic nilDeref, m1, tr1⟩
    | some h => ⟨Ret.ret (env.dbQuery tr1 h sql1), m1, tr1 ++ [Event.dbQuery h sql1]⟩

/-- Method Close of `main.go`: the notice goes through the standard logger, the
handle is closed when there is one, and the `Conn` field is not written. -/
def Mapper.Close (env : Env) (mapper : Mapper) (tr : List Event) :
    Option GoError × Mapper × List Event :=
  let tr1 := tr ++ [Event.stderrLog "Closing connection in mapper"]
  match mapper.Conn with
  | some h => (env.dbClose tr1 h, mapper, tr1 ++ [Event.dbClose h])
  | none => (none, mapper, tr1)

/-! ## Observations on traces -/

/-- Statement texts handed to `DB.Prepare`, in order. -/
def preparedTexts : List Event → List String
  | [] => []
  | Event.dbPrepare _ q :: es => q :: preparedTexts es
  | _ :: es => preparedTexts es

/-- Executions of prepared statements with their bound values, in order. -/
def executions : List Event → List (StmtId × List Value)
  | [] => []
  | Event.stmtExec s args :: es => (s, args) :: executions es
  | _ :: es => executions es

/-- Connection strings handed to `sql.Open`, in order: one per connect attempt. -/
def connectAttempts : List Event → List String
  | [] => []
  | Event.sqlOpen _ dsn :: es => dsn :: connectAttempts es
  | _ :: es => connectAttempts es

/-- Handles on which a query or a preparation was issued, in order. -/
def usedHandles : List Event → List Handle
  | [] => []
  | Event.dbQuery h _ :: es => h :: usedHandles es
  | Event.dbPrepare h _ :: es => h :: usedHandles es
  | _ :: es => usedHandles es

/-! ## The statement texts, as the specification words them -/

/-- The placeholder pattern in the words of the specification: `n` copies of the
group `(` + `k` question marks joined by `,` + `)`, joined by `,`. -/
def placeholderPattern (k n : Nat) : String :=
  ",".intercalate (List.replicate n ("(" ++ ",".intercalate (List.replicate k "?") ++ ")"))

/-- The head of the insert statement as `main.go` writes it (lower-case
keywords). -/
def insertHead (table : String) (fields : List String) : String :=
  "insert into " ++ table ++ " (" ++ ",".intercalate fields ++ ") values "

/-- The head of the insert statement in the words of the specification
(upper-case keywords). -/
def specInsertHead (table : String) (fields : List String) : String :=
  "INSERT INTO " ++ table ++ " (" ++ ",".intercalate fields ++ ") VALUES "

/-! ## Concrete environments and mappers used at the concrete inputs -/

/-- An environment in which every call succeeds. -/
def envOk : Env :=
  { sqlOpen := fun _ _ _ => (some 1, none)
    dbQuery := fun _ _ _ => (some 0, none)
    dbPrepare := fun _ _ _ => Except.ok 5
    stmtExec := fun _ _ _ => none
    dbClose := fun _ _ => none }

/-- An environment in which `sql.Open` reports an error. -/
def envOpenFails : Env :=
  { envOk with sqlOpen := fun _ _ _ => (none, some "invalid DSN") }

/-- An environment in which `DB.Prepare` reports an error, as it does on a
closed handle. -/
def envPrepareFails : Env :=
  { envOk with dbPrepare := fun _ _ _ => Except.error "sql: database is closed" }

/-- A sample config. -/
def cfg0 : DBConfig := ⟨"u", "p", "h", "3306", "d", ""⟩

/-- A mapper on table `t` that holds the handle `7`. -/
def mapper7 : Mapper := { New cfg0 with Conn := some 7, Source := "t" }

/-- The rows `[[1,2],[3,4]]`. -/
def rows1234 : List (List Value) :=
  [[Value.int 1, Value.int 2], [Value.int 3, Value.int 4]]

/-! ## Data operations as values -/

/-- The data operations of the Mapper with their arguments. -/
inductive Op where
  | query (q : String) : Op
  | exec (q : String) : Op
  | load (source : String) (fields : String) (clause : Value) : Op
  | insert (fields : List String) (row : Value) (od : Value) : Op
  | insertBatch (fields : List String) (rows : List Value) (od : Value) : Op

/-- Keeps how a call ended and its error, drops the result set. -/
def Step.errOnly (s : Step (Option RowsId × Option GoError)) : Step (Option GoError) :=
  match s.out with
  | Ret.ret r => ⟨Ret.ret r.2, s.mapper, s.trace⟩
  | Ret.panic msg => ⟨Ret.panic msg, s.mapper, s.trace⟩

/-- Runs one data operation. -/
def runOp (env : Env) (m : Mapper) (tr : List Event) : Op → Step (Option GoError)
  | Op.query q => (Mapper.Query env m tr q).errOnly
  | Op.exec q => (Mapper.Exec env m tr q).errOnly
  | Op.load source fields clause => (Mapper.Load env m tr source fields clause).errOnly
  | Op.insert fields row od => Mapper.Insert env m tr fields row od
  | Op.insertBatch fields rows od => Mapper.InsertBatch env m tr fields rows od

/-- Runs data operations one after the other; a panic ends the run. -/
def runOps (env : Env) : Mapper → List Event → List Op → Mapper × List Event
  | m, tr, [] => (m, tr)
  | m, tr, op :: ops =>
    match (runOp env m tr op).out with
    | Ret.panic _ => ((runOp env m tr op).mapper, (runOp env m tr op).trace)
    | Ret.ret _ => runOps env (runOp env m tr op).mapper (runOp env m tr op).trace ops

/-- Whether the operation needs a connection: all do, except InsertBatch with no
rows. -/
def Op.touches : Op → Bool
  | Op.insertBatch _ rows _ => decide (rows.length ≠ 0)
  | _ => true

/-- Whether the operation, given a handle, reaches its call on the handle: the
rows are there, and no type assertion on a row or on the clause panics. -/
def Op.issues : Op → Bool
  | Op.query _ => true
  | Op.exec _ => true
  | Op.load _ _ clause => (applyWhere "" clause).isSome
  | Op.insert fields row od =>
    (rowsLoop (plLoop fields.length []) [row] [] []).isSome && (applyOnDuplicate "" od).isSome
  | Op.insertBatch fields rows od =>
    decide (rows.length ≠ 0) && (rowsLoop (plLoop fields.length []) rows [] []).isSome
      && (applyOnDuplicate "" od).isSome

/-! ## Traces of Connect and texts of InsertBatch, for the statements below -/

/-- The trace after the connect attempt: the notice and the `sql.Open` call. -/
def attemptTrace (m : Mapper) (tr : List Event) : List Event :=
  m.log tr ["Connecting to mysql: ", m.getDbInfo] ++
    [Event.sqlOpen "mysql" (connectionString m.DBConfig)]

/-- The trace after a successful connect: the attempt and the second notice. -/
def connectedTrace (m : Mapper) (tr : List Event) : List Event :=
  m.log (attemptTrace m tr) ["Connected to mysql: ", m.getDbInfo]

/-- The texts InsertBatch hands to `DB.Prepare` once a handle is there: none when
a type assertion panics, else the one text built by the loops and the clause. -/
def insertTexts (source : String) (fields : List String) (rows : List Value)
    (od : Value) : List String :=
  match rowsLoop (plLoop fields.length []) rows [] [] with
  | none => []
  | some (_, placeholder) =>
    match applyOnDuplicate
        ("insert into " ++ source ++ " (" ++ ",".intercalate fields ++ ") values " ++
          ",".intercalate placeholder) od with
    | none => []
    | some text => [text]

/-! ## Lemmas on the loops -/

theorem plLoop_eq (k : Nat) (pl : List String) :
    plLoop k pl = pl ++ List.replicate k "?" := by
  induction k generalizing pl with
  | zero => simp [plLoop]
  | succ k ih => simp [plLoop, ih, List.replicate_succ]

theorem appendRow_eq (r values : List Value) : appendRow r values = values ++ r := by
  induction r generalizing values with
  | nil => simp [appendRow]
  | cons v r ih => simp [appendRow, ih]

theorem rowsLoop_slices (pl : List String) (rows : List (List Value))
    (values : List Value) (placeholder : List String) :
    rowsLoop pl (rows.map Value.slice) values placeholder =
      some (values ++ rows.flatten,
        placeholder ++ List.replicate rows.length ("(" ++ ",".intercalate pl ++ ")")) := by
  induction rows generalizing values placeholder with
  | nil => simp [rowsLoop]
  | cons r rows ih =>
    simp [rowsLoop, ih, appendRow_eq, List.replicate_succ]

theorem preparedTexts_append (a b : List Event) :
    preparedTexts (a ++ b) = preparedTexts a ++ preparedTexts b := by
  induction a with
  | nil => rfl
  | cons e a ih => cases e <;> simp [preparedTexts, ih]

theorem executions_append (a b : List Event) :
    executions (a ++ b) = executions a ++ executions b := by
  induction a with
  | nil => rfl
  | cons e a ih => cases e <;> simp [executions, ih]

theorem connectAttempts_append (a b : List Event) :
    connectAttempts (a ++ b) = connectAttempts a ++ connectAttempts b := by
  induction a with
  | nil => rfl
  | cons e a ih => cases e <;> simp [connectAttempts, ih]

theorem usedHandles_append (a b : List Event) :
    usedHandles (a ++ b) = usedHandles a ++ usedHandles b := by
  induction a with
  | nil => rfl
  | cons e a ih => cases e <;> simp [usedHandles, ih]

/-- With a handle present, sequence rows and a well-typed clause, InsertBatch is
one preparation of the text, then (when it succeeds) one execution with the
row-major values and the release of the statement. -/
theorem insertBatch_present (env : Env) (m : Mapper) (tr : List Event) (h : Handle)
    (fields : List String) (rows : List (List Value)) (od : Value) (text : String)
    (hconn : m.Conn = some h) (hrows : rows ≠ [])
    (hod : applyOnDuplicate
      (insertHead m.Source fields ++ placeholderPattern fields.length rows.length) od
        = some text) :
    Mapper.InsertBatch env m tr fields (rows.map Value.slice) od =
      (match env.dbPrepare tr h text with
      | Except.error err => ⟨Ret.ret (some err), m, tr ++ [Event.dbPrepare h text]⟩
      | Except.ok stmt =>
        match env.stmtExec (tr ++ [Event.dbPrepare h text]) stmt rows.flatten with
        | some execErr =>
          ⟨Ret.ret (some execErr), m, tr ++ [Event.dbPrepare h text,
            Event.stmtExec stmt rows.flatten,
            Event.stdout ("MySQL exec:  " ++ execErr ++ "\n"), Event.stmtClose stmt]⟩
        | none =>
          ⟨Ret.ret none, m, tr ++ [Event.dbPrepare h text,
            Event.stmtExec stmt rows.flatten, Event.stmtClose stmt]⟩) := by
  have hlen : ¬ (rows.map Value.slice).length = 0 := by
    simpa using hrows
  simp only [insertHead, placeholderPattern] at hod
  unfold Mapper.InsertBatch
  rw [if_neg hlen]
  simp only [hconn, rowsLoop_slices, plLoop_eq, hod, List.nil_append, List.length_map]
  cases hp : env.dbPrepare tr h text with
  | error err => simp
  | ok stmt =>
    simp only []
    cases he : env.stmtExec _ stmt rows.flatten with
    | some e => simp
    | none => simp

/-! ## Lemmas on Connect -/

theorem preparedTexts_log (m : Mapper) (tr : List Event) (d : List String) :
    preparedTexts (m.log tr d) = preparedTexts tr := by
  unfold Mapper.log
  cases m.Logger <;> simp [preparedTexts_append, preparedTexts]

theorem connectAttempts_log (m : Mapper) (tr : List Event) (d : List String) :
    connectAttempts (m.log tr d) = connectAttempts tr := by
  unfold Mapper.log
  cases m.Logger <;> simp [connectAttempts_append, connectAttempts]

/-- Connect either fails, leaving the receiver as it was, or stores the handle
that `sql.Open` returned. -/
theorem connect_cases (env : Env) (m : Mapper) (tr : List Event) :
    (∃ err, Mapper.Connect env m tr = (some err, m, attemptTrace m tr)) ∨
    (∃ c, env.sqlOpen (m.log tr ["Connecting to mysql: ", m.getDbInfo]) "mysql"
        (connectionString m.DBConfig) = (some c, none) ∧
      Mapper.Connect env m tr = (none, { m with Conn := some c }, connectedTrace m tr)) := by
  unfold Mapper.Connect connectedTrace attemptTrace
  rcases hopen : env.sqlOpen (m.log tr ["Connecting to mysql: ", m.getDbInfo]) "mysql"
      (connectionString m.DBConfig) with ⟨conn, err⟩
  cases err with
  | some e => exact Or.inl ⟨e, by simp [hopen]⟩
  | none =>
    cases conn with
    | none => exact Or.inl ⟨"Connection to MySQL is nil", by simp [hopen]⟩
    | some c => exact Or.inr ⟨c, rfl, by simp [hopen]⟩

/-- An absent handle and a failed connect: InsertBatch with rows panics, its
trace is the connect attempt. -/
theorem insertBatch_connect_failed (env : Env) (m : Mapper) (tr : List Event)
    (fields : List String) (rows : List Value) (od : Value) (err : GoError)
    (hconn : m.Conn = none) (hrows : rows ≠ [])
    (hc : Mapper.Connect env m tr = (some err, m, attemptTrace m tr)) :
    ∃ msg, Mapper.InsertBatch env m tr fields rows od =
      ⟨Ret.panic msg, m, attemptTrace m tr⟩ := by
  have hlen : ¬ rows.length = 0 := by simpa using hrows
  unfold Mapper.InsertBatch
  rw [if_neg hlen]
  simp only [hconn, hc]
  split
  · exact ⟨_, rfl⟩
  · split
    · exact ⟨_, rfl⟩
    · exact ⟨_, rfl⟩

/-- An absent handle and a successful connect: InsertBatch with rows goes on as
from the connected receiver. -/
theorem insertBatch_connect_ok (env : Env) (m : Mapper) (tr : List Event)
    (fields : List String) (rows : List Value) (od : Value) (c : Handle)
    (hconn : m.Conn = none) (hrows : rows ≠ [])
    (hc : Mapper.Connect env m tr = (none, { m with Conn := some c }, connectedTrace m tr)) :
    Mapper.InsertBatch env m tr fields rows od =
      Mapper.InsertBatch env { m with Conn := some c } (connectedTrace m tr) fields rows od := by
  have hlen : ¬ rows.length = 0 := by simpa using hrows
  unfold Mapper.InsertBatch
  rw [if_neg hlen, if_neg hlen]
  simp only [hconn, hc]

/-! ## The texts InsertBatch prepares -/

theorem insertBatch_present_prepared (env : Env) (m : Mapper) (tr : List Event)
    (h : Handle) (fields : List String) (rows : List Value) (od : Value)
    (hconn : m.Conn = some h) (hrows : rows ≠ []) :
    preparedTexts (Mapper.InsertBatch env m tr fields rows od).trace
      = preparedTexts tr ++ insertTexts m.Source fields rows od := by
  have hlen : ¬ rows.length = 0 := by simpa using hrows
  unfold Mapper.InsertBatch insertTexts
  rw [if_neg hlen]
  simp only [hconn]
  cases rowsLoop (plLoop fields.length []) rows [] [] with
  | none => simp
  | some vp =>
    obtain ⟨values, placeholder⟩ := vp
    simp only []
    cases applyOnDuplicate _ od with
    | none => simp
    | some text =>
      simp only []
      cases env.dbPrepare tr h text with
      | error err => simp [preparedTexts_append, preparedTexts]
      | ok stmt =>
        simp only []
        cases env.stmtExec _ stmt values <;> simp [preparedTexts_append, preparedTexts]

theorem insertTexts_clause (source : String) (fields : List String) (rows : List Value)
    (clause : String) :
    insertTexts source fields rows (Value.str clause) =
      (insertTexts source fields rows Value.nil).map
        (fun s => s ++ " ON DUPLICATE KEY UPDATE " ++ clause) := by
  unfold insertTexts
  cases rowsLoop (plLoop fields.length []) rows [] [] with
  | none => simp
  | some vp => simp [applyOnDuplicate, String.append_assoc]

theorem insertTexts_slices (source : String) (fields : List String)
    (rows : List (List Value)) :
    insertTexts source fields (rows.map Value.slice) Value.nil =
      [insertHead source fields ++ placeholderPattern fields.length rows.length] := by
  simp [insertTexts, rowsLoop_slices, plLoop_eq, applyOnDuplicate, insertHead,
    placeholderPattern]

theorem rowsLoop_placeholder (pl : List String) (rows : List Value)
    (values : List Value) (placeholder : List String) (v : List Value) (p : List String)
    (hl : rowsLoop pl rows values placeholder = some (v, p)) :
    p = placeholder ++ List.replicate rows.length ("(" ++ ",".intercalate pl ++ ")") := by
  induction rows generalizing values placeholder with
  | nil =>
    simp only [rowsLoop, Option.some.injEq, Prod.mk.injEq] at hl
    simp [hl.2]
  | cons r rows ih =>
    cases r with
    | slice vs =>
      simp only [rowsLoop] at hl
      rw [ih _ _ hl]
      simp [List.replicate_succ]
    | nil => simp [rowsLoop] at hl
    | int i => simp [rowsLoop] at hl
    | str t => simp [rowsLoop] at hl
    | bool b => simp [rowsLoop] at hl

theorem insertTexts_nil_cases (source : String) (fields : List String) (rows : List Value) :
    insertTexts source fields rows Value.nil =
        [insertHead source fields ++ placeholderPattern fields.length rows.length] ∨
    insertTexts source fields rows Value.nil = [] := by
  unfold insertTexts
  cases hl : rowsLoop (plLoop fields.length []) rows [] [] with
  | none => exact Or.inr rfl
  | some vp =>
    obtain ⟨v, p⟩ := vp
    have hp := rowsLoop_placeholder _ rows [] [] v p hl
    left
    simp [applyOnDuplicate, hp, plLoop_eq, insertHead, placeholderPattern]

/-- The texts InsertBatch prepares when a handle is present or the implicit
connect succeeds. -/
theorem insertBatch_prepared_ok (env : Env) (m : Mapper) (tr : List Event)
    (fields : List String) (rows : List Value) (od : Value) (hrows : rows ≠ [])
    (hok : m.Conn ≠ none ∨ (Mapper.Connect env m tr).1 = none) :
    preparedTexts (Mapper.InsertBatch env m tr fields rows od).trace
      = preparedTexts tr ++ insertTexts m.Source fields rows od := by
  cases hconn : m.Conn with
  | some h => exact insertBatch_present_prepared env m tr h fields rows od hconn hrows
  | none =>
    rcases connect_cases env m tr with ⟨err, hc⟩ | ⟨c, _, hc⟩
    · rcases hok with hok | hok
      · exact absurd hconn hok
      · rw [hc] at hok
        cases hok
    · have hpt : preparedTexts (connectedTrace m tr) = preparedTexts tr := by
        simp [connectedTrace, attemptTrace, preparedTexts_append, preparedTexts_log,
          preparedTexts]
      rw [insertBatch_connect_ok env m tr fields rows od c hconn hrows hc,
        insertBatch_present_prepared env _ _ c fields rows od rfl hrows, hpt]

/-- Nothing is prepared when the handle is absent and the implicit connect
fails. -/
theorem insertBatch_prepared_failed (env : Env) (m : Mapper) (tr : List Event)
    (fields : List String) (rows : List Value) (od : Value) (hrows : rows ≠ [])
    (hno : ¬ (m.Conn ≠ none ∨ (Mapper.Connect env m tr).1 = none)) :
    preparedTexts (Mapper.InsertBatch env m tr fields rows od).trace = preparedTexts tr := by
  have hconn : m.Conn = none := by
    by_contra hne
    exact hno (Or.inl hne)
  rcases connect_cases env m tr with ⟨err, hc⟩ | ⟨c, _, hc⟩
  · obtain ⟨msg, hib⟩ := insertBatch_connect_failed env m tr fields rows od err hconn hrows hc
    rw [hib]
    simp [attemptTrace, preparedTexts_append, preparedTexts_log, preparedTexts]
  · exact absurd (Or.inr (by rw [hc])) hno

/-! ## InsertBatch: placeholders, bound values, statement text -/

/-- C1 (as amended): with a handle present and a non-empty list of `n` rows, each
a sequence of values, InsertBatch prepares exactly one statement, whose text is
the head followed by `n` groups of `k` question marks; when the preparation fails nothing
is executed and the error is returned; when it succeeds the statement is
executed exactly once and the bound values are the rows concatenated in order. -/
theorem C1_insertBatch_prepares_and_binds (env : Env) (m : Mapper) (tr : List Event)
    (h : Handle) (fields : List String) (rows : List (List Value))
    (hconn : m.Conn = some h) (hrows : rows ≠ []) :
    preparedTexts (Mapper.InsertBatch env m tr fields (rows.map Value.slice) Value.nil).trace
        = preparedTexts tr ++
          [insertHead m.Source fields ++ placeholderPattern fields.length rows.length] ∧
    (∀ err, env.dbPrepare tr h
        (insertHead m.Source fields ++ placeholderPattern fields.length rows.length)
          = Except.error err →
      (Mapper.InsertBatch env m tr fields (rows.map Value.slice) Value.nil).out
          = Ret.ret (some err) ∧
      executions (Mapper.InsertBatch env m tr fields (rows.map Value.slice) Value.nil).trace
          = executions tr) ∧
    (∀ stmt, env.dbPrepare tr h
        (insertHead m.Source fields ++ placeholderPattern fields.length rows.length)
          = Except.ok stmt →
      executions (Mapper.InsertBatch env m tr fields (rows.map Value.slice) Value.nil).trace
          = executions tr ++ [(stmt, rows.flatten)]) := by
  rw [insertBatch_present env m tr h fields rows Value.nil _ hconn hrows rfl]
  refine ⟨?_, ?_, ?_⟩
  · cases env.dbPrepare tr h _ with
    | error err => simp [preparedTexts_append, preparedTexts]
    | ok stmt =>
      simp only []
      cases env.stmtExec _ stmt rows.flatten <;> simp [preparedTexts_append, preparedTexts]
  · intro err herr
    rw [herr]
    simp [executions_append, executions]
  · intro stmt hstmt
    rw [hstmt]
    simp only []
    cases env.stmtExec _ stmt rows.flatten <;> simp [executions_append, executions]

/-- C1 at the input of the specification: columns `a`, `b` and rows
`[[1,2],[3,4]]` give the pattern `(?,?),(?,?)` and the bound values `1,2,3,4`. -/
theorem C1_witness :
    preparedTexts (Mapper.InsertBatch envOk mapper7 [] ["a", "b"]
        (rows1234.map Value.slice) Value.nil).trace
      = ["insert into t (a,b) values " ++ "(?,?),(?,?)"] ∧
    executions (Mapper.InsertBatch envOk mapper7 [] ["a", "b"]
        (rows1234.map Value.slice) Value.nil).trace
      = [(5, [Value.int 1, Value.int 2, Value.int 3, Value.int 4])] :=
  ⟨(C1_insertBatch_prepares_and_binds envOk mapper7 [] 7 ["a", "b"] rows1234 rfl
      (List.cons_ne_nil _ _)).1,
   (C1_insertBatch_prepares_and_binds envOk mapper7 [] 7 ["a", "b"] rows1234 rfl
      (List.cons_ne_nil _ _)).2.2 5 rfl⟩

/-- C1 as stated fails: on a handle whose preparation fails (a closed one), the
one statement is prepared and it is executed zero times. -/
theorem C1_counterexample :
    mapper7.Conn = some 7 ∧
    (Mapper.InsertBatch envPrepareFails mapper7 [] ["a", "b"]
        (rows1234.map Value.slice) Value.nil).trace
      = [Event.dbPrepare 7 "insert into t (a,b) values (?,?),(?,?)"] ∧
    executions (Mapper.InsertBatch envPrepareFails mapper7 [] ["a", "b"]
        (rows1234.map Value.slice) Value.nil).trace = [] ∧
    (Mapper.InsertBatch envPrepareFails mapper7 [] ["a", "b"]
        (rows1234.map Value.slice) Value.nil).out
      = Ret.ret (some "sql: database is closed") :=
  ⟨rfl, rfl, rfl, rfl⟩

/-- C2 (as amended): the text InsertBatch prepares is the lower-case head
`insert into T (columns) values ` followed by the placeholder groups; that one
text is prepared whenever a handle is present or the implicit connect succeeds
and every row is a sequence, and in no case is any other text prepared. -/
theorem C2_insertBatch_text (env : Env) (m : Mapper) (tr : List Event)
    (fields : List String) (rows : List Value) (hrows : rows ≠ []) :
    ((m.Conn ≠ none ∨ (Mapper.Connect env m tr).1 = none) →
      ∀ rs : List (List Value), rows = rs.map Value.slice →
      preparedTexts (Mapper.InsertBatch env m tr fields rows Value.nil).trace
        = preparedTexts tr ++
          ["insert into " ++ m.Source ++ " (" ++ ",".intercalate fields ++ ") values " ++
            placeholderPattern fields.length rows.length]) ∧
    (preparedTexts (Mapper.InsertBatch env m tr fields rows Value.nil).trace
        = preparedTexts tr ++
          ["insert into " ++ m.Source ++ " (" ++ ",".intercalate fields ++ ") values " ++
            placeholderPattern fields.length rows.length] ∨
     preparedTexts (Mapper.InsertBatch env m tr fields rows Value.nil).trace
        = preparedTexts tr) := by
  constructor
  · intro hok rs hrs
    rw [insertBatch_prepared_ok env m tr fields rows _ hrows hok, hrs, insertTexts_slices]
    simp [insertHead]
  · by_cases hok : m.Conn ≠ none ∨ (Mapper.Connect env m tr).1 = none
    · rw [insertBatch_prepared_ok env m tr fields rows _ hrows hok]
      rcases insertTexts_nil_cases m.Source fields rows with ht | ht
      · left
        rw [ht]
        simp [insertHead]
      · right
        rw [ht]
        simp
    · exact Or.inr (insertBatch_prepared_failed env m tr fields rows _ hrows hok)

/-- C2 at a concrete input: table `t`, columns `a`, `b`, two rows. -/
theorem C2_witness :
    preparedTexts (Mapper.InsertBatch envOk mapper7 [] ["a", "b"]
        (rows1234.map Value.slice) Value.nil).trace
      = ["insert into t (a,b) values (?,?),(?,?)"] :=
  (C2_insertBatch_text envOk mapper7 [] ["a", "b"] (rows1234.map Value.slice)
    (List.cons_ne_nil _ _)).1 (Or.inl (by decide)) rows1234 rfl

/-- C2 as stated fails: the prepared text has lower-case keywords, it is not the
text with `INSERT INTO` and `VALUES` that the specification words. -/
theorem C2_counterexample :
    preparedTexts (Mapper.InsertBatch envOk mapper7 [] ["a", "b"]
        (rows1234.map Value.slice) Value.nil).trace
      = ["insert into t (a,b) values (?,?),(?,?)"] ∧
    specInsertHead mapper7.Source ["a", "b"] ++ placeholderPattern 2 2
      = "INSERT INTO t (a,b) VALUES (?,?),(?,?)" ∧
    preparedTexts (Mapper.InsertBatch envOk mapper7 [] ["a", "b"]
        (rows1234.map Value.slice) Value.nil).trace
      ≠ [specInsertHead mapper7.Source ["a", "b"] ++ placeholderPattern 2 2] := by
  refine ⟨rfl, by decide, ?_⟩
  have h1 : preparedTexts (Mapper.InsertBatch envOk mapper7 [] ["a", "b"]
        (rows1234.map Value.slice) Value.nil).trace
      = ["insert into t (a,b) values (?,?),(?,?)"] := rfl
  have h2 : specInsertHead mapper7.Source ["a", "b"] ++ placeholderPattern 2 2
      = "INSERT INTO t (a,b) VALUES (?,?),(?,?)" := by decide
  rw [h1, h2]
  decide

/-- C8: InsertBatch with an empty row sequence returns no error, adds nothing to
the trace (no connect attempt, no preparation, no execution) and leaves the
Mapper as it was, whatever the Mapper, the columns and the clause. -/
theorem C8_insertBatch_empty_rows (env : Env) (m : Mapper) (tr : List Event)
    (fields : List String) (od : Value) :
    Mapper.InsertBatch env m tr fields [] od = ⟨Ret.ret none, m, tr⟩ := by
  simp [Mapper.InsertBatch]

/-- C6: Insert on a row is InsertBatch on the one-element sequence of that row:
same outcome, same receiver afterwards and same trace (hence the same prepared
statement and bound values). -/
theorem C6_insert_is_insertBatch_singleton (env : Env) (m : Mapper) (tr : List Event)
    (fields : List String) (row : Value) (od : Value) :
    Mapper.Insert env m tr fields row od = Mapper.InsertBatch env m tr fields [row] od := by
  simp [Mapper.Insert]

/-- C7: with a handle present, Load issues exactly one query on it, whose text is
`SELECT fields FROM source;` without a clause and
`SELECT fields FROM source WHERE clause;` with one; the table is the `source`
argument and the Mapper, its table name included, is unchanged. -/
theorem C7_load_query_text (env : Env) (m : Mapper) (tr : List Event) (h : Handle)
    (source fields clause : String) (hconn : m.Conn = some h) :
    Mapper.Load env m tr source fields Value.nil =
      ⟨Ret.ret (env.dbQuery tr h ("SELECT " ++ fields ++ " FROM " ++ source ++ ";")), m,
        tr ++ [Event.dbQuery h ("SELECT " ++ fields ++ " FROM " ++ source ++ ";")]⟩ ∧
    Mapper.Load env m tr source fields (Value.str clause) =
      ⟨Ret.ret (env.dbQuery tr h
          ("SELECT " ++ fields ++ " FROM " ++ source ++ " WHERE " ++ clause ++ ";")), m,
        tr ++ [Event.dbQuery h
          ("SELECT " ++ fields ++ " FROM " ++ source ++ " WHERE " ++ clause ++ ";")]⟩ ∧
    (Mapper.Load env m tr source fields Value.nil).mapper.Source = m.Source ∧
    (Mapper.Load env m tr source fields (Value.str clause)).mapper.Source = m.Source := by
  have hassoc : "SELECT " ++ fields ++ " FROM " ++ source ++ (" WHERE " ++ clause)
      = "SELECT " ++ fields ++ " FROM " ++ source ++ " WHERE " ++ clause := by
    simp [String.append_assoc]
  refine ⟨?_, ?_, ?_, ?_⟩ <;> simp [Mapper.Load, hconn, applyWhere, hassoc]

/-- C7 at the inputs of the specification. -/
theorem C7_witness :
    Mapper.Load envOk mapper7 [] "t" "*" Value.nil =
      ⟨Ret.ret (some 0, none), mapper7, [Event.dbQuery 7 "SELECT * FROM t;"]⟩ ∧
    Mapper.Load envOk mapper7 [] "t" "*" (Value.str "x=1") =
      ⟨Ret.ret (some 0, none), mapper7, [Event.dbQuery 7 "SELECT * FROM t WHERE x=1;"]⟩ :=
  ⟨(C7_load_query_text envOk mapper7 [] 7 "t" "*" "x=1" rfl).1,
   (C7_load_query_text envOk mapper7 [] 7 "t" "*" "x=1" rfl).2.1⟩

/-- C9: every connect attempt hands `sql.Open` exactly
`user:password@tcp(host:port)/database`, one attempt per call of Connect, and the
string does not depend on the SSL mode. -/
theorem C9_connection_string (env : Env) (m : Mapper) (tr : List Event) (ssl : String) :
    connectAttempts (Mapper.Connect env m tr).2.2 = connectAttempts tr ++
      [m.DBConfig.User ++ ":" ++ m.DBConfig.Password ++ "@tcp(" ++ m.DBConfig.Host ++ ":" ++
        m.DBConfig.Port ++ ")/" ++ m.DBConfig.Database] ∧
    connectAttempts (Mapper.Connect env { m with DBConfig := { m.DBConfig with SSLmode := ssl } }
        tr).2.2 = connectAttempts (Mapper.Connect env m tr).2.2 ∧
    connectionString { m.DBConfig with SSLmode := ssl } = connectionString m.DBConfig := by
  have key : ∀ m' : Mapper, connectAttempts (Mapper.Connect env m' tr).2.2 =
      connectAttempts tr ++ [connectionString m'.DBConfig] := by
    intro m'
    rcases connect_cases env m' tr with ⟨err, hc⟩ | ⟨c, _, hc⟩ <;>
      simp [hc, connectedTrace, attemptTrace, connectAttempts_append, connectAttempts_log,
        connectAttempts]
  refine ⟨?_, ?_, rfl⟩
  · rw [key]; rfl
  · rw [key, key]; rfl

/-! ## InsertBatch: the duplicate-key clause -/

/-- C5: the text InsertBatch prepares with a string clause is the text it
prepares with the nil clause followed by ` ON DUPLICATE KEY UPDATE ` and the
clause as it is; with the nil clause the text ends with the last placeholder
group.  When nothing can be prepared (a failed implicit connect, a row that is
not a sequence) nothing is prepared with either clause. -/
theorem C5_insertBatch_on_duplicate (env : Env) (m : Mapper) (tr : List Event)
    (fields : List String) (rows : List Value) (clause : String) (hrows : rows ≠ []) :
    ∃ texts : List String,
      preparedTexts (Mapper.InsertBatch env m tr fields rows Value.nil).trace
        = preparedTexts tr ++ texts ∧
      preparedTexts (Mapper.InsertBatch env m tr fields rows (Value.str clause)).trace
        = preparedTexts tr ++
          texts.map (fun s => s ++ " ON DUPLICATE KEY UPDATE " ++ clause) ∧
      (∀ rs : List (List Value), rows = rs.map Value.slice →
        (m.Conn ≠ none ∨ (Mapper.Connect env m tr).1 = none) →
        texts = [insertHead m.Source fields ++ placeholderPattern fields.length rs.length]) := by
  by_cases hok : m.Conn ≠ none ∨ (Mapper.Connect env m tr).1 = none
  · refine ⟨insertTexts m.Source fields rows Value.nil, ?_, ?_, ?_⟩
    · exact insertBatch_prepared_ok env m tr fields rows _ hrows hok
    · rw [insertBatch_prepared_ok env m tr fields rows _ hrows hok, insertTexts_clause]
    · intro rs hrs _
      rw [hrs, insertTexts_slices]
  · refine ⟨[], ?_, ?_, ?_⟩
    · simpa using insertBatch_prepared_failed env m tr fields rows _ hrows hok
    · simpa using insertBatch_prepared_failed env m tr fields rows _ hrows hok
    · intro rs _ h
      exact absurd h hok

/-- C5 at a concrete input: the clause `b=1` on two rows. -/
theorem C5_witness :
    preparedTexts (Mapper.InsertBatch envOk mapper7 [] ["a", "b"]
        (rows1234.map Value.slice) Value.nil).trace
      = ["insert into t (a,b) values (?,?),(?,?)"] ∧
    preparedTexts (Mapper.InsertBatch envOk mapper7 [] ["a", "b"]
        (rows1234.map Value.slice) (Value.str "b=1")).trace
      = ["insert into t (a,b) values (?,?),(?,?) ON DUPLICATE KEY UPDATE b=1"] := by
  obtain ⟨texts, h1, h2, h3⟩ :=
    C5_insertBatch_on_duplicate envOk mapper7 [] ["a", "b"] (rows1234.map Value.slice) "b=1"
      (List.cons_ne_nil _ _)
  have ht := h3 rows1234 rfl (Or.inl (by decide))
  have hv : insertHead mapper7.Source ["a", "b"] ++ placeholderPattern 2 rows1234.length
      = "insert into t (a,b) values (?,?),(?,?)" := by decide
  simp only [List.length_cons, List.length_nil] at ht
  rw [hv] at ht
  subst ht
  refine ⟨h1, ?_⟩
  rw [h2]
  decide

/-! ## Frame lemmas: a handle is present -/

theorem query_present (env : Env) (m : Mapper) (tr : List Event) (h : Handle) (q : String)
    (hconn : m.Conn = some h) :
    Mapper.Query env m tr q =
      ⟨Ret.ret (env.dbQuery tr h q), m, tr ++ [Event.dbQuery h q]⟩ := by
  simp [Mapper.Query, hconn]

theorem applyWhere_isSome (sql : String) (c : Value) :
    (applyWhere sql c).isSome = (applyWhere "" c).isSome := by
  cases c <;> rfl

theorem applyOnDuplicate_isSome (sql : String) (od : Value) :
    (applyOnDuplicate sql od).isSome = (applyOnDuplicate "" od).isSome := by
  cases od <;> rfl

theorem load_present (env : Env) (m : Mapper) (tr : List Event) (h : Handle)
    (source fields : String) (c : Value) (hconn : m.Conn = some h) :
    (Mapper.Load env m tr source fields c).mapper = m ∧
    connectAttempts (Mapper.Load env m tr source fields c).trace = connectAttempts tr ∧
    usedHandles (Mapper.Load env m tr source fields c).trace
      = usedHandles tr ++ (if (applyWhere "" c).isSome then [h] else []) := by
  rw [← applyWhere_isSome ("SELECT " ++ fields ++ " FROM " ++ source) c]
  unfold Mapper.Load
  simp only [hconn]
  cases applyWhere ("SELECT " ++ fields ++ " FROM " ++ source) c with
  | none => simp
  | some sql => simp [connectAttempts_append, connectAttempts, usedHandles_append, usedHandles]

theorem insertBatch_present_frame (env : Env) (m : Mapper) (tr : List Event) (h : Handle)
    (fields : List String) (rows : List Value) (od : Value) (hconn : m.Conn = some h) :
    (Mapper.InsertBatch env m tr fields rows od).mapper = m ∧
    connectAttempts (Mapper.InsertBatch env m tr fields rows od).trace = connectAttempts tr ∧
    usedHandles (Mapper.InsertBatch env m tr fields rows od).trace
      = usedHandles tr ++ (if (decide (rows.length ≠ 0) &&
          (rowsLoop (plLoop fields.length []) rows [] []).isSome &&
          (applyOnDuplicate "" od).isSome) = true then [h] else []) := by
  unfold Mapper.InsertBatch
  by_cases hlen : rows.length = 0
  · simp [hlen]
  · rw [if_neg hlen]
    simp only [hconn]
    cases rowsLoop (plLoop fields.length []) rows [] [] with
    | none => simp
    | some vp =>
      obtain ⟨values, placeholder⟩ := vp
      simp only []
      rw [← applyOnDuplicate_isSome ("insert into " ++ m.Source ++ " (" ++
        ",".intercalate fields ++ ") values " ++ ",".intercalate placeholder) od]
      cases applyOnDuplicate _ od with
      | none => simp
      | some text =>
        simp only []
        cases env.dbPrepare tr h text with
        | error err =>
          simp [hlen, connectAttempts_append, connectAttempts, usedHandles_append, usedHandles]
        | ok stmt =>
          simp only []
          cases env.stmtExec _ stmt values <;>
            simp [hlen, connectAttempts_append, connectAttempts, usedHandles_append,
              usedHandles]

/-- With a handle present, a data operation leaves the Mapper as it was, makes
no connect attempt and issues its statement, if it reaches it, on that handle. -/
theorem runOp_present (env : Env) (m : Mapper) (tr : List Event) (h : Handle) (op : Op)
    (hconn : m.Conn = some h) :
    (runOp env m tr op).mapper = m ∧
    connectAttempts (runOp env m tr op).trace = connectAttempts tr ∧
    usedHandles (runOp env m tr op).trace
      = usedHandles tr ++ (if op.issues = true then [h] else []) := by
  cases op with
  | query q =>
    simp [runOp, Step.errOnly, query_present env m tr h q hconn, Op.issues,
      connectAttempts_append, connectAttempts, usedHandles_append, usedHandles]
  | exec q =>
    simp [runOp, Mapper.Exec, Step.errOnly, query_present env m tr h q hconn, Op.issues,
      connectAttempts_append, connectAttempts, usedHandles_append, usedHandles]
  | load source fields c =>
    have hl := load_present env m tr h source fields c hconn
    simp only [runOp, Step.errOnly, Op.issues]
    cases hout : (Mapper.Load env m tr source fields c).out <;> exact hl
  | insert fields row od =>
    have hi := insertBatch_present_frame env m tr h fields [row] od hconn
    simpa [runOp, Mapper.Insert, Op.issues] using hi
  | insertBatch fields rows od =>
    exact insertBatch_present_frame env m tr h fields rows od hconn

/-! ## Lazy connect: the handle is absent -/

theorem connect_of_open (env : Env) (m : Mapper) (tr : List Event) (c : Handle)
    (hopen : env.sqlOpen (m.log tr ["Connecting to mysql: ", m.getDbInfo]) "mysql"
      (connectionString m.DBConfig) = (some c, none)) :
    Mapper.Connect env m tr = (none, { m with Conn := some c }, connectedTrace m tr) := by
  simp [Mapper.Connect, connectedTrace, attemptTrace, hopen]

theorem runOp_noop (env : Env) (m : Mapper) (tr : List Event) (op : Op)
    (hop : op.touches = false) : runOp env m tr op = ⟨Ret.ret none, m, tr⟩ := by
  cases op with
  | insertBatch fields rows od =>
    have hlen : rows.length = 0 := by simpa [Op.touches] using hop
    simp [runOp, Mapper.InsertBatch, hlen]
  | query q => simp [Op.touches] at hop
  | exec q => simp [Op.touches] at hop
  | load source fields c => simp [Op.touches] at hop
  | insert fields row od => simp [Op.touches] at hop

theorem query_connect_ok (env : Env) (m : Mapper) (tr : List Event) (q : String) (c : Handle)
    (hconn : m.Conn = none)
    (hc : Mapper.Connect env m tr = (none, { m with Conn := some c }, connectedTrace m tr)) :
    Mapper.Query env m tr q =
      Mapper.Query env { m with Conn := some c } (connectedTrace m tr) q := by
  simp [Mapper.Query, hconn, hc]

theorem load_connect_ok (env : Env) (m : Mapper) (tr : List Event)
    (source fields : String) (cl : Value) (c : Handle) (hconn : m.Conn = none)
    (hc : Mapper.Connect env m tr = (none, { m with Conn := some c }, connectedTrace m tr)) :
    Mapper.Load env m tr source fields cl =
      Mapper.Load env { m with Conn := some c } (connectedTrace m tr) source fields cl := by
  unfold Mapper.Load
  simp only [hconn, hc]

/-- An absent handle and a successful connect: the operation goes on as from the
connected receiver. -/
theorem runOp_connect_ok (env : Env) (m : Mapper) (tr : List Event) (op : Op) (c : Handle)
    (hconn : m.Conn = none) (hop : op.touches = true)
    (hc : Mapper.Connect env m tr = (none, { m with Conn := some c }, connectedTrace m tr)) :
    runOp env m tr op = runOp env { m with Conn := some c } (connectedTrace m tr) op := by
  cases op with
  | query q => simp only [runOp, query_connect_ok env m tr q c hconn hc]
  | exec q => simp only [runOp, Mapper.Exec, query_connect_ok env m tr q c hconn hc]
  | load source fields cl =>
    simp only [runOp, load_connect_ok env m tr source fields cl c hconn hc]
  | insert fields row od =>
    simp only [runOp, Mapper.Insert]
    exact insertBatch_connect_ok env m tr fields _ od c hconn (by simp) hc
  | insertBatch fields rows od =>
    have hne : rows ≠ [] := by
      intro h0
      simp [Op.touches, h0] at hop
    simp only [runOp]
    exact insertBatch_connect_ok env m tr fields rows od c hconn hne hc

theorem runOps_present (env : Env) (m : Mapper) (h : Handle) (hconn : m.Conn = some h)
    (ops : List Op) (tr : List Event) :
    connectAttempts (runOps env m tr ops).2 = connectAttempts tr := by
  induction ops generalizing tr with
  | nil => rfl
  | cons op ops ih =>
    obtain ⟨hm, hca, _⟩ := runOp_present env m tr h op hconn
    unfold runOps
    cases hout : (runOp env m tr op).out with
    | panic msg => simpa using hca
    | ret r =>
      simp only []
      rw [hm, ih, hca]

/-- From an absent handle, when the connect of the receiver succeeds: a run
makes that one connect attempt as soon as an operation needs a connection, and
none before. -/
theorem runOps_absent (env : Env) (m : Mapper) (tr : List Event)
    (hconn : m.Conn = none) (hok : (Mapper.Connect env m tr).1 = none) (ops : List Op) :
    (connectAttempts (runOps env m tr ops).2 = connectAttempts tr ∨
      connectAttempts (runOps env m tr ops).2
        = connectAttempts tr ++ [connectionString m.DBConfig]) ∧
    ((∃ o ∈ ops, o.touches = true) →
      connectAttempts (runOps env m tr ops).2
        = connectAttempts tr ++ [connectionString m.DBConfig]) := by
  induction ops with
  | nil => simp [runOps]
  | cons op ops ih =>
    cases hop : op.touches with
    | false =>
      have hno := runOp_noop env m tr op hop
      have hrun : runOps env m tr (op :: ops) = runOps env m tr ops := by
        rw [runOps, hno]
      rw [hrun]
      refine ⟨ih.1, ?_⟩
      rintro ⟨o, ho, hot⟩
      rcases List.mem_cons.mp ho with rfl | ho
      · rw [hop] at hot
        cases hot
      · exact ih.2 ⟨o, ho, hot⟩
    | true =>
      have hcase : ∃ c, Mapper.Connect env m tr
          = (none, { m with Conn := some c }, connectedTrace m tr) := by
        rcases connect_cases env m tr with ⟨err, hc⟩ | ⟨c, _, hc⟩
        · rw [hc] at hok
          cases hok
        · exact ⟨c, hc⟩
      obtain ⟨c, hc⟩ := hcase
      have hstep := runOp_connect_ok env m tr op c hconn hop hc
      obtain ⟨hm, hca, _⟩ :=
        runOp_present env { m with Conn := some c } (connectedTrace m tr) c op rfl
      have hct : connectAttempts (connectedTrace m tr)
          = connectAttempts tr ++ [connectionString m.DBConfig] := by
        simp [connectedTrace, attemptTrace, connectAttempts_append, connectAttempts_log,
          connectAttempts]
      rw [← hstep, hct] at hca
      rw [← hstep] at hm
      have hall : connectAttempts (runOps env m tr (op :: ops)).2
          = connectAttempts tr ++ [connectionString m.DBConfig] := by
        unfold runOps
        cases hout : (runOp env m tr op).out with
        | panic msg => simpa using hca
        | ret r =>
          simp only []
          rw [hm, runOps_present env _ c rfl, hca]
      exact ⟨Or.inr hall, fun _ => hall⟩

/-! ## Reuse of the handle -/

/-- C10: with a handle present, each data operation makes no connect attempt,
issues its statement (when it reaches it) on that same handle and leaves the
Mapper, hence its handle, config and table name, unchanged; `New(config)` has no
handle and the given config; and a run of data operations from it whose first
connect succeeds makes exactly one connect attempt as soon as one operation needs
a connection (none when all are InsertBatch without rows). -/
theorem C10_handle_reused (env : Env) (m : Mapper) (tr : List Event) (h : Handle) (op : Op)
    (cfg : DBConfig) (ops : List Op) :
    (m.Conn = some h →
      (runOp env m tr op).mapper = m ∧
      connectAttempts (runOp env m tr op).trace = connectAttempts tr ∧
      usedHandles (runOp env m tr op).trace
        = usedHandles tr ++ (if op.issues = true then [h] else [])) ∧
    ((New cfg).Conn = none ∧ (New cfg).DBConfig = cfg) ∧
    ((Mapper.Connect env (New cfg) []).1 = none →
      (connectAttempts (runOps env (New cfg) [] ops).2).length ≤ 1 ∧
      ((∃ o ∈ ops, o.touches = true) →
        connectAttempts (runOps env (New cfg) [] ops).2
          = [cfg.User ++ ":" ++ cfg.Password ++ "@tcp(" ++ cfg.Host ++ ":" ++ cfg.Port ++
              ")/" ++ cfg.Database])) := by
  refine ⟨fun hconn => runOp_present env m tr h op hconn, ⟨rfl, rfl⟩, ?_⟩
  intro hok
  obtain ⟨hle, hex⟩ := runOps_absent env (New cfg) [] rfl hok ops
  constructor
  · rcases hle with hle | hle <;> rw [hle] <;> simp [connectAttempts]
  · intro hx
    rw [hex hx]
    rfl

/-- C10 at a concrete run: an InsertBatch without rows, a query, a load and an
insert from a fresh Mapper make one connect attempt; a query on a Mapper that
holds the handle `7` goes to that handle. -/
theorem C10_witness :
    ((runOp envOk mapper7 [] (Op.query "SELECT 1")).mapper = mapper7 ∧
      connectAttempts (runOp envOk mapper7 [] (Op.query "SELECT 1")).trace = [] ∧
      usedHandles (runOp envOk mapper7 [] (Op.query "SELECT 1")).trace = [7]) ∧
    connectAttempts (runOps envOk (New cfg0) []
      [Op.insertBatch ["a"] [] Value.nil, Op.query "SELECT 1", Op.load "t" "*" Value.nil,
        Op.insert ["a"] (Value.slice [Value.int 1]) Value.nil]).2 = ["u:p@tcp(h:3306)/d"] :=
  ⟨(C10_handle_reused envOk mapper7 [] 7 (Op.query "SELECT 1") cfg0 []).1 rfl,
   ((C10_handle_reused envOk mapper7 [] 7 (Op.query "SELECT 1") cfg0
      [Op.insertBatch ["a"] [] Value.nil, Op.query "SELECT 1", Op.load "t" "*" Value.nil,
        Op.insert ["a"] (Value.slice [Value.int 1]) Value.nil]).2.2 rfl).2
      ⟨Op.query "SELECT 1", by simp, rfl⟩⟩

/-! ## A failed implicit connect -/

/-- An absent handle and a failed connect: Query returns the connect error and
issues nothing. -/
theorem query_connect_failed (env : Env) (m : Mapper) (tr : List Event) (q : String)
    (err : GoError) (hconn : m.Conn = none)
    (hc : Mapper.Connect env m tr = (some err, m, attemptTrace m tr)) :
    Mapper.Query env m tr q = ⟨Ret.ret (none, some err), m, attemptTrace m tr⟩ := by
  simp [Mapper.Query, hconn, hc]

/-- An absent handle and a failed connect: Load drops the connect error and
panics on the nil handle. -/
theorem load_connect_failed (env : Env) (m : Mapper) (tr : List Event)
    (source fields : String) (err : GoError) (hconn : m.Conn = none)
    (hc : Mapper.Connect env m tr = (some err, m, attemptTrace m tr)) :
    Mapper.Load env m tr source fields Value.nil =
      ⟨Ret.panic nilDeref, m, attemptTrace m tr⟩ := by
  unfold Mapper.Load
  simp only [hconn, hc, applyWhere]

/-- C3 at the failing input: on a fresh Mapper whose connect fails, Query and Exec
return the connect error after the one attempt, while Load, InsertBatch and Insert
drop that error and panic on the nil handle instead of returning it. -/
theorem C3_connect_error_dropped :
    Mapper.Query envOpenFails (New cfg0) [] "SELECT 1" =
      ⟨Ret.ret (none, some "invalid DSN"), New cfg0,
        [Event.stdout "Connecting to mysql:  u@h:3306/d\n",
          Event.sqlOpen "mysql" "u:p@tcp(h:3306)/d"]⟩ ∧
    Mapper.Exec envOpenFails (New cfg0) [] "SELECT 1" =
      ⟨Ret.ret (none, some "invalid DSN"), New cfg0,
        [Event.stdout "Connecting to mysql:  u@h:3306/d\n",
          Event.sqlOpen "mysql" "u:p@tcp(h:3306)/d"]⟩ ∧
    Mapper.Load envOpenFails (New cfg0) [] "t" "*" Value.nil =
      ⟨Ret.panic nilDeref, New cfg0,
        [Event.stdout "Connecting to mysql:  u@h:3306/d\n",
          Event.sqlOpen "mysql" "u:p@tcp(h:3306)/d"]⟩ ∧
    Mapper.InsertBatch envOpenFails (New cfg0) [] ["a", "b"] (rows1234.map Value.slice)
        Value.nil =
      ⟨Ret.panic nilDeref, New cfg0,
        [Event.stdout "Connecting to mysql:  u@h:3306/d\n",
          Event.sqlOpen "mysql" "u:p@tcp(h:3306)/d"]⟩ ∧
    Mapper.Insert envOpenFails (New cfg0) [] ["a", "b"]
        (Value.slice [Value.int 1, Value.int 2]) Value.nil =
      ⟨Ret.panic nilDeref, New cfg0,
        [Event.stdout "Connecting to mysql:  u@h:3306/d\n",
          Event.sqlOpen "mysql" "u:p@tcp(h:3306)/d"]⟩ :=
  ⟨rfl, rfl, rfl, rfl, rfl⟩

/-! ## Close -/

/-- C4 (as amended): Close closes the handle and leaves it in the Mapper; the
next data operation finds the handle present, makes no connect attempt and
issues its statement on that same, closed, handle. -/
theorem C4_close_keeps_handle (env : Env) (m : Mapper) (tr : List Event) (h : Handle)
    (op : Op) (hconn : m.Conn = some h) :
    Mapper.Close env m tr =
      (env.dbClose (tr ++ [Event.stderrLog "Closing connection in mapper"]) h, m,
        tr ++ [Event.stderrLog "Closing connection in mapper", Event.dbClose h]) ∧
    (runOp env (Mapper.Close env m tr).2.1 (Mapper.Close env m tr).2.2 op).mapper.Conn
      = some h ∧
    connectAttempts (runOp env (Mapper.Close env m tr).2.1 (Mapper.Close env m tr).2.2 op).trace
      = connectAttempts tr ∧
    usedHandles (runOp env (Mapper.Close env m tr).2.1 (Mapper.Close env m tr).2.2 op).trace
      = usedHandles tr ++ (if op.issues = true then [h] else []) := by
  have hclose : Mapper.Close env m tr =
      (env.dbClose (tr ++ [Event.stderrLog "Closing connection in mapper"]) h, m,
        tr ++ [Event.stderrLog "Closing connection in mapper", Event.dbClose h]) := by
    simp [Mapper.Close, hconn]
  obtain ⟨hm, hca, hu⟩ := runOp_present env m
    (tr ++ [Event.stderrLog "Closing connection in mapper", Event.dbClose h]) h op hconn
  rw [hclose]
  refine ⟨rfl, ?_, ?_, ?_⟩
  · simp only [hm, hconn]
  · rw [hca]
    simp [connectAttempts_append, connectAttempts]
  · rw [hu]
    simp [usedHandles_append, usedHandles]

/-- C4 at a concrete input: a query after Close on the Mapper holding handle `7`. -/
theorem C4_witness :
    (Mapper.Close envOk mapper7 []).2.1 = mapper7 ∧
    connectAttempts (runOp envOk (Mapper.Close envOk mapper7 []).2.1
      (Mapper.Close envOk mapper7 []).2.2 (Op.query "SELECT 1")).trace = [] ∧
    usedHandles (runOp envOk (Mapper.Close envOk mapper7 []).2.1
      (Mapper.Close envOk mapper7 []).2.2 (Op.query "SELECT 1")).trace = [7] :=
  ⟨congrArg (fun r => r.2.1)
      (C4_close_keeps_handle envOk mapper7 [] 7 (Op.query "SELECT 1") rfl).1,
    (C4_close_keeps_handle envOk mapper7 [] 7 (Op.query "SELECT 1") rfl).2.2.1,
    (C4_close_keeps_handle envOk mapper7 [] 7 (Op.query "SELECT 1") rfl).2.2.2⟩

/-- C4 as stated fails: after Close the Mapper still holds handle `7`, and the
next query makes no connect attempt and goes to the closed handle `7`. -/
theorem C4_counterexample :
    (Mapper.Close envOk mapper7 []).2.1.Conn = some 7 ∧
    (Mapper.Query envOk (Mapper.Close envOk mapper7 []).2.1
        (Mapper.Close envOk mapper7 []).2.2 "SELECT 1").trace
      = [Event.stderrLog "Closing connection in mapper", Event.dbClose 7,
          Event.dbQuery 7 "SELECT 1"] ∧
    connectAttempts (Mapper.Query envOk (Mapper.Close envOk mapper7 []).2.1
        (Mapper.Close envOk mapper7 []).2.2 "SELECT 1").trace = [] :=
  ⟨rfl, rfl, rfl⟩

end GoMysql
